import Mathlib

/-!
# Verification of the libdns/porkbun provider

Shallow embedding of the porkbun DNS provider client (Go) and proofs about
its record reconciliation, translation, TTL handling and error behaviour.

The repository contains two historical design iterations; functions of the
earlier iteration carry the suffix `1` (flat `libdns.Record`, coordinate-set
`SetRecords`), functions of the later iteration have no suffix or describe the
typed-record translator (`toLibdnsRecordNew`).

HTTP transport is modelled as an environment of typed request handlers
(`ApiEnv`); each provider operation additionally returns the ordered log of
API calls it issued, so that statements about which requests were sent (and
with which bodies) can be made precisely.
-/

namespace Porkbun

/-! ## String helpers (Go `strings` package) -/

/-- Go `strings.TrimSuffix`: drops `suf` from the end of `s` when present. -/
def trimSuffix (s suf : String) : String :=
  if suf.toList.isSuffixOf s.toList then
    String.mk (s.toList.take (s.toList.length - suf.toList.length))
  else s

/-- `LibdnsZoneToPorkbunDomain` / `trimZone`: strips one trailing dot from a zone. -/
def trimZone (zone : String) : String :=
  trimSuffix zone "."

/-- Splits a character list at the first occurrence of `c`, when present. -/
def splitFirst (c : Char) : List Char → Option (List Char × List Char)
  | [] => none
  | x :: xs =>
    if x = c then some ([], xs)
    else match splitFirst c xs with
      | none => none
      | some (l, r) => some (x :: l, r)

/-- Go `strings.SplitN` (positive `n`) on a single-character separator:
at most `n` parts, the last part keeps the remaining separators. -/
def splitNList (c : Char) : Nat → List Char → List (List Char)
  | 0, _ => []
  | 1, cs => [cs]
  | n + 2, cs =>
    match splitFirst c cs with
    | none => [cs]
    | some (l, r) => l :: splitNList c (n + 1) r

/-- Go `strings.SplitN` on strings, specialised to a one-character separator. -/
def goSplitN (s : String) (c : Char) (n : Nat) : List String :=
  (splitNList c n s.toList).map String.mk

/-! ## Numeric parsing (Go `strconv`, `time`) -/

/-- Value of a digit list, `none` when empty or containing a non-digit. -/
def digitsVal : List Char → Option Nat
  | [] => none
  | cs =>
    cs.foldl (fun acc c =>
      match acc with
      | none => none
      | some n => if c.isDigit then some (n * 10 + (c.toNat - '0'.toNat)) else none)
      (some 0)

/-- Go `strconv.Atoi`: optional sign followed by one or more digits. -/
def goAtoi (s : String) : Option Int :=
  match s.toList with
  | '-' :: rest => (digitsVal rest).map (fun n => -(n : Int))
  | '+' :: rest => (digitsVal rest).map (fun n => (n : Int))
  | cs => (digitsVal cs).map (fun n => (n : Int))

/-- Nanoseconds per second (`time.Second`). -/
def nsPerSec : Int := 1000000000

/-- Model of Go `time.ParseDuration (ttl ++ "s")` as the code applies it to the
wire TTL field: an optional sign and a decimal number (with optional fractional
part, significant to nanoseconds) of seconds, yielding nanoseconds. Inputs that
are not plain decimal numbers are a parse error. -/
def parseTTLns (ttl : String) : Option Int :=
  let parseUnsigned : List Char → Option Nat := fun cs =>
    match splitFirst '.' cs with
    | none => (digitsVal cs).map (fun n => n * 1000000000)
    | some (intPart, fracPart) =>
      if intPart.isEmpty ∧ fracPart.isEmpty then none
      else if ¬ fracPart.all Char.isDigit then none
      else
        let ipart := if intPart.isEmpty then some 0 else digitsVal intPart
        let f9 := fracPart.take 9
        let fval := (f9.foldl (fun a c => a * 10 + (c.toNat - '0'.toNat)) 0) *
          10 ^ (9 - f9.length)
        ipart.map (fun n => n * 1000000000 + fval)
  match ttl.toList with
  | '-' :: rest => (parseUnsigned rest).map (fun n => -(n : Int))
  | '+' :: rest => (parseUnsigned rest).map (fun n => (n : Int))
  | cs => (parseUnsigned cs).map (fun n => (n : Int))

/-- Go `uint8` conversion of an `int` (two's complement truncation). -/
def goUint8 (i : Int) : Int := Int.emod i 256

/-- Go `uint16` conversion of an `int`. -/
def goUint16 (i : Int) : Int := Int.emod i 65536

/-- Go `uint` (64-bit) conversion of an `int`. -/
def goUint64 (i : Int) : Int := Int.emod i 18446744073709551616

/-! ## libdns name handling (external dependency)

`libdns.RelativeName` is part of the `libdns` dependency, not of this
repository. The later iterations rely on it returning `"@"` for the zone
apex; the earliest iteration was built against the older libdns that
performed a plain suffix trim. Both are modelled here. -/

/-- Modern `libdns.RelativeName`: makes `fqdn` relative to `zone` (both with
or without trailing dot), returning `"@"` for the zone apex. -/
def relativeName (fqdn zone : String) : String :=
  if trimSuffix (trimSuffix (trimSuffix fqdn ".") (trimSuffix zone ".")) "." = "" then "@"
  else trimSuffix (trimSuffix (trimSuffix fqdn ".") (trimSuffix zone ".")) "."

/-- Early (v0.x) `libdns.RelativeName`: plain suffix trim of `zone`, then of a
trailing dot; no apex sentinel. -/
def relativeNameV0 (fqdn zone : String) : String :=
  trimSuffix (trimSuffix fqdn zone) "."

/-! ## Data model (`models.go`) -/

/-- `pkbnRecord` / `PorkbunRecord`: the provider's flat wire record. The `id`
field is present on the listing endpoints of the first two iterations and
unused by the newest translator. -/
structure PkbnRecord where
  content : String
  id : String
  name : String
  notes : String
  prio : String
  ttl : String
  type : String
  deriving DecidableEq, Repr

/-- `ApiCredentials`. -/
structure ApiCredentials where
  apikey : String
  secretapikey : String
  deriving DecidableEq, Repr

/-- `pkbnResponseStatus` / `ResponseStatus`: `{status, message}`. -/
structure StatusResp where
  status : String
  message : String
  deriving DecidableEq, Repr

/-- `pkbnRecordsResponse` / `ApiRecordsResponse`: `{status, records}`. -/
structure RecordsResp where
  status : String
  records : List PkbnRecord
  deriving DecidableEq, Repr

/-- `pkbnPingResponse` / `PingResponse`: `{status, yourIp}`. -/
structure PingResp where
  status : String
  yourIP : String
  deriving DecidableEq, Repr

/-- `libdns.Record` as the struct used by the first two iterations:
`{ID, Name, Priority, TTL, Type, Value}`. TTL is a `time.Duration` in
nanoseconds; `priority` holds the `int`/`uint` value as an integer. -/
structure Rec where
  id : String
  name : String
  priority : Int
  ttl : Int
  type : String
  value : String
  deriving DecidableEq, Repr

/-- `pkbnRecordPayload` / `RecordCreateRequest`: the JSON body of create and
edit requests (credentials embedded, every field a string). -/
structure Payload where
  creds : ApiCredentials
  content : String
  name : String
  ttl : String
  type : String
  deriving DecidableEq, Repr

/-- `RecordUpdateRequest` (first iteration): `{credentials, content, ttl}`. -/
structure UpdatePayload1 where
  creds : ApiCredentials
  content : String
  ttl : String
  deriving DecidableEq, Repr

/-- Errors a provider operation can return, one constructor per `errors.New` /
`fmt.Errorf` site (plus transport errors surfaced from `MakeApiRequest`). -/
inductive PErr
  /-- a non-nil error from `MakeApiRequest` (HTTP, decode, ...) -/
  | transport (msg : String)
  /-- `errors.New(fmt.Sprintf("Invalid response status %s", ...))` -/
  | invalidStatus (status : String)
  /-- `fmt.Errorf("unexpectedly found more than 1 record for %v", r)` -/
  | ambiguousMatch (r : Rec)
  /-- `time.ParseDuration` failure surfaced by the first iteration's GetRecords -/
  | ttlParse (ttl : String)
  deriving DecidableEq, Repr

/-! ## API transport environment

`MakeApiRequest` / `makeHttpRequest` perform one POST and decode the response;
from the caller's point of view each endpoint is a function from the request
data to either a transport-level error or a decoded response. The concrete
HTTP world is abstracted as such a family of handlers. -/

/-- One handler per endpoint consumed by the client. Arguments are the path
components (trimmed zone, record type, relative name, record id) and the JSON
body where one is sent. -/
structure ApiEnv where
  /-- `dns/retrieve/{zone}` -/
  retrieve : String → Except String RecordsResp
  /-- `dns/retrieveByNameType/{zone}/{type}/{name}` -/
  retrieveByNameType : String → String → String → Except String RecordsResp
  /-- `dns/create/{zone}` -/
  create : String → Payload → Except String StatusResp
  /-- `dns/edit/{zone}/{id}` -/
  edit : String → String → Payload → Except String StatusResp
  /-- `dns/editByNameType/{zone}/{type}/{name}` (first iteration) -/
  editByNameType : String → String → String → UpdatePayload1 → Except String StatusResp
  /-- `dns/delete/{zone}/{id}` -/
  deleteById : String → String → Except String StatusResp
  /-- `ping` -/
  ping : Except String PingResp

/-- A record of one issued API call (endpoint and request data), used to state
which requests an operation sent, in order. -/
inductive ApiCall
  | retrieve (zone : String)
  | retrieveByNameType (zone ty name : String)
  | create (zone : String) (p : Payload)
  | edit (zone id : String) (p : Payload)
  | editByNameType (zone ty name : String) (p : UpdatePayload1)
  | deleteById (zone id : String)
  | ping
  deriving DecidableEq, Repr

/-- Result of a provider operation returning `([]libdns.Record, error)`,
together with the log of API calls it issued. A Go `nil` slice is `[]`. -/
structure OpResult where
  log : List ApiCall
  recs : List Rec
  err : Option PErr
  deriving DecidableEq, Repr

/-! ## Later iteration: translation and client helpers
(`models.go` first half, `client.go`, `provider.go` second half) -/

/-- `pkbnRecord.toLibdnsRecord` of the struct-record iteration
(models.go, lines 45-56): TTL parse and priority parse failures are
deliberately ignored (`_`), the name is made relative to the trimmed zone,
and the priority undergoes Go's `uint` conversion. -/
def toLibdnsRecordMid (record : PkbnRecord) (zone : String) : Rec :=
  { id := record.id
    name := relativeName record.name (trimZone zone)
    priority := goUint64 ((goAtoi record.prio).getD 0)
    ttl := (parseTTLns record.ttl).getD 0
    type := record.type
    value := record.content }

/-- The zone-relative name the later iteration sends on the wire: the
relative name with the apex sentinel `"@"` replaced by the empty string. -/
def wireName (name zone : String) : String :=
  if relativeName name zone = "@" then "" else relativeName name zone

/-- The create/edit request body the later iteration builds for a record
(after the TTL floor was applied to `r`): content, wire name, TTL in whole
seconds, type. -/
def payloadFor (creds : ApiCredentials) (zone : String) (r : Rec) : Payload :=
  { creds := creds
    content := r.value
    name := wireName r.name zone
    ttl := toString (Int.tdiv r.ttl nsPerSec)
    type := r.type }

/-- The TTL floor both iterations apply before serialising a record:
`if record.TTL/time.Second < 600 { record.TTL = 600 * time.Second }`. -/
def floorTTL (r : Rec) : Rec :=
  if Int.tdiv r.ttl nsPerSec < 600 then { r with ttl := 600 * nsPerSec } else r

deriving instance DecidableEq for Except

/-- Result of `getMatchingRecord`: the issued lookup call and either the
transport error or the translated matches. -/
structure GmResult where
  log : List ApiCall
  res : Except PErr (List Rec)
  deriving DecidableEq, Repr

/-- `getMatchingRecord` (client.go, lines 50-77): one
`dns/retrieveByNameType/{zone}/{type}/{name}` request; its records are
translated with `toLibdnsRecordMid`. The response status is not inspected. -/
def getMatchingRecord (env : ApiEnv) (creds : ApiCredentials) (r : Rec)
    (zone : String) : GmResult :=
  { log := [ApiCall.retrieveByNameType (trimZone zone) r.type (wireName r.name zone)]
    res :=
      match env.retrieveByNameType (trimZone zone) r.type (wireName r.name zone) with
      | .error msg => .error (.transport msg)
      | .ok resp => .ok (resp.records.map (toLibdnsRecordMid · zone)) }

/-- The record `AppendRecords` reports back for one input after a successful
create: the TTL-floored record, with the id patched in when the best-effort
follow-up lookup returns exactly one match. -/
def appendFinalize (env : ApiEnv) (creds : ApiCredentials) (zone : String)
    (r : Rec) : Rec :=
  match (getMatchingRecord env creds (floorTTL r) zone).res with
  | .ok [m] => { floorTTL r with id := m.id }
  | _ => floorTTL r

/-- Loop body accumulator form of `AppendRecords` (provider.go second half,
lines 330-372): per record, floor the TTL, issue `dns/create/{zone}`; a
transport error or non-`SUCCESS` status aborts, returning the records created
so far plus the error; on success a follow-up lookup tries to recover the id,
and the record is appended to the result. -/
def appendRecordsAux (env : ApiEnv) (creds : ApiCredentials) (zone : String)
    (acc : List Rec) (log : List ApiCall) : List Rec → OpResult
  | [] => { log := log, recs := acc, err := none }
  | r :: rs =>
    let r1 := floorTTL r
    let p := payloadFor creds zone r1
    let call := ApiCall.create (trimZone zone) p
    match env.create (trimZone zone) p with
    | .error msg => { log := log ++ [call], recs := acc, err := some (.transport msg) }
    | .ok st =>
      if st.status ≠ "SUCCESS" then
        { log := log ++ [call], recs := acc, err := some (.invalidStatus st.status) }
      else
        appendRecordsAux env creds zone (acc ++ [appendFinalize env creds zone r])
          (log ++ [call] ++ (getMatchingRecord env creds r1 zone).log) rs

/-- `AppendRecords` of the later iteration. -/
def appendRecords (env : ApiEnv) (creds : ApiCredentials) (zone : String)
    (records : List Rec) : OpResult :=
  appendRecordsAux env creds zone [] [] records

/-- Loop body accumulator form of `updateRecords` (client.go, lines 80-114):
per record, floor the TTL, issue `dns/edit/{zone}/{id}`. A transport error
returns `(nil, err)`; a non-`SUCCESS` status executes `return nil, err` where
`err` is nil, i.e. it returns no error at all. -/
def updateRecordsAux (env : ApiEnv) (creds : ApiCredentials) (zone : String)
    (acc : List Rec) (log : List ApiCall) : List Rec → OpResult
  | [] => { log := log, recs := acc, err := none }
  | r :: rs =>
    let r1 := floorTTL r
    let p := payloadFor creds zone r1
    let call := ApiCall.edit (trimZone zone) r.id p
    match env.edit (trimZone zone) r.id p with
    | .error msg => { log := log ++ [call], recs := [], err := some (.transport msg) }
    | .ok st =>
      if st.status ≠ "SUCCESS" then
        { log := log ++ [call], recs := [], err := none }
      else
        updateRecordsAux env creds zone (acc ++ [r1]) (log ++ [call]) rs

/-- `updateRecords` of the later iteration (edit by id). -/
def updateRecords (env : ApiEnv) (creds : ApiCredentials) (zone : String)
    (records : List Rec) : OpResult :=
  updateRecordsAux env creds zone [] [] records

/-- The classification loop of the later `SetRecords` (provider.go second
half, lines 376-402): a record with a non-empty id goes to the update list;
otherwise a `getMatchingRecord` lookup decides: no match → create list, one
match → update list with the id patched in, several matches → the whole
call fails. Returns the lookup log and either the first error or the
`(creates, updates)` partition. -/
def setClassify (env : ApiEnv) (creds : ApiCredentials) (zone : String) :
    List Rec → List ApiCall × Except PErr (List Rec × List Rec)
  | [] => ([], .ok ([], []))
  | r :: rs =>
    if r.id = "" then
      match (getMatchingRecord env creds r zone).res with
      | .error e => ((getMatchingRecord env creds r zone).log, .error e)
      | .ok [] =>
        ((getMatchingRecord env creds r zone).log ++ (setClassify env creds zone rs).1,
         (setClassify env creds zone rs).2.map (fun cu => (r :: cu.1, cu.2)))
      | .ok [m] =>
        ((getMatchingRecord env creds r zone).log ++ (setClassify env creds zone rs).1,
         (setClassify env creds zone rs).2.map (fun cu => (cu.1, { r with id := m.id } :: cu.2)))
      | .ok (_ :: _ :: _) =>
        ((getMatchingRecord env creds r zone).log, .error (.ambiguousMatch r))
    else
      ((setClassify env creds zone rs).1,
       (setClassify env creds zone rs).2.map (fun cu => (cu.1, r :: cu.2)))

/-- `SetRecords` of the later iteration: classify, then create via
`appendRecords`, then update via `updateRecords`; the first error of either
phase aborts with a nil result; on success the result is created ++ updated. -/
def setRecords (env : ApiEnv) (creds : ApiCredentials) (zone : String)
    (records : List Rec) : OpResult :=
  let (clog, cres) := setClassify env creds zone records
  match cres with
  | .error e => { log := clog, recs := [], err := some e }
  | .ok (creates, updates) =>
    let a := appendRecords env creds zone creates
    match a.err with
    | some e => { log := clog ++ a.log, recs := [], err := some e }
    | none =>
      let u := updateRecords env creds zone updates
      match u.err with
      | some e => { log := clog ++ a.log ++ u.log, recs := [], err := some e }
      | none => { log := clog ++ a.log ++ u.log, recs := a.recs ++ u.recs, err := none }

/-- Inner deletion loop of the later `DeleteRecords`: one
`dns/delete/{zone}/{id}` per queued record; the response status is never
inspected, only transport errors abort (returning the records deleted so
far). -/
def deleteQueued (env : ApiEnv) (zone : String)
    (acc : List Rec) (log : List ApiCall) : List Rec → OpResult
  | [] => { log := log, recs := acc, err := none }
  | m :: ms =>
    let call := ApiCall.deleteById (trimZone zone) m.id
    match env.deleteById (trimZone zone) m.id with
    | .error msg => { log := log ++ [call], recs := acc, err := some (.transport msg) }
    | .ok _ => deleteQueued env zone (acc ++ [m]) (log ++ [call]) ms

/-- `DeleteRecords` of the later iteration (provider.go second half, lines
419-455): a record without an id is resolved by a name+type lookup and every
match is queued; a record with an id is queued directly; each queued record
is deleted by id. -/
def deleteRecordsAux (env : ApiEnv) (creds : ApiCredentials) (zone : String)
    (acc : List Rec) (log : List ApiCall) : List Rec → OpResult
  | [] => { log := log, recs := acc, err := none }
  | r :: rs =>
    if r.id = "" then
      let g := getMatchingRecord env creds r zone
      match g.res with
      | .error e => { log := log ++ g.log, recs := acc, err := some e }
      | .ok ms =>
        let d := deleteQueued env zone acc (log ++ g.log) ms
        match d.err with
        | some e => { log := d.log, recs := d.recs, err := some e }
        | none => deleteRecordsAux env creds zone d.recs d.log rs
    else
      let d := deleteQueued env zone acc log [r]
      match d.err with
      | some e => { log := d.log, recs := d.recs, err := some e }
      | none => deleteRecordsAux env creds zone d.recs d.log rs

/-- `DeleteRecords` of the later iteration. -/
def deleteRecords (env : ApiEnv) (creds : ApiCredentials) (zone : String)
    (records : List Rec) : OpResult :=
  deleteRecordsAux env creds zone [] [] records

/-- `CheckCredentials` (client.go, lines 27-44): one `ping` request. On a
non-`SUCCESS` status the code executes `return "", err` where `err` is nil,
so no error is reported. Returns `(log, yourIP, error)`. -/
def checkCredentials (env : ApiEnv) (creds : ApiCredentials) :
    List ApiCall × String × Option PErr :=
  match env.ping with
  | .error msg => ([.ping], "", some (.transport msg))
  | .ok resp =>
    if resp.status ≠ "SUCCESS" then ([.ping], "", none)
    else ([.ping], resp.yourIP, none)

/-! ## Earlier iteration (`provider.go` first half, coordinate-set `SetRecords`) -/

/-- `getRecordCoordinates`: `fmt.Sprintf("%s-%s", record.Name, record.Type)`.
The names are used verbatim (not zone-relative). -/
def recordCoordinates (r : Rec) : String :=
  r.name ++ "-" ++ r.type

/-- Translation loop of the first iteration's `GetRecords` (provider.go,
lines 82-98): a TTL parse failure fails the whole call; the priority parse
failure is tolerated as zero; the name is the wire name with a trailing dot
appended. -/
def translateRecords1 : List PkbnRecord → Except PErr (List Rec)
  | [] => .ok []
  | w :: ws =>
    match parseTTLns w.ttl with
    | none => .error (.ttlParse w.ttl)
    | some t =>
      (translateRecords1 ws).map (fun rest =>
        { id := w.id
          name := w.name ++ "."
          priority := (goAtoi w.prio).getD 0
          ttl := t
          type := w.type
          value := w.content } :: rest)

/-- `GetRecords` of the first iteration (provider.go, lines 65-101): one
`dns/retrieve/{zone}` request, status checked, then `translateRecords1`. -/
def getRecords1 (env : ApiEnv) (creds : ApiCredentials) (zone : String) :
    List ApiCall × Except PErr (List Rec) :=
  let call := ApiCall.retrieve (trimZone zone)
  match env.retrieve (trimZone zone) with
  | .error msg => ([call], .error (.transport msg))
  | .ok resp =>
    if resp.status ≠ "SUCCESS" then ([call], .error (.invalidStatus resp.status))
    else ([call], translateRecords1 resp.records)

/-- The create request the first iteration builds for a (TTL-floored) record:
it uses the old `RelativeName` without any apex mapping. -/
def payload1For (creds : ApiCredentials) (zone : String) (r : Rec) : Payload :=
  { creds := creds
    content := r.value
    name := relativeNameV0 r.name zone
    ttl := toString (Int.tdiv r.ttl nsPerSec)
    type := r.type }

/-- `AppendRecords` of the first iteration (provider.go, lines 104-137):
per record, floor the TTL and issue `dns/create/{zone}`; any failure returns
`nil` (not the partially created records) together with the error. -/
def appendRecords1Aux (env : ApiEnv) (creds : ApiCredentials) (zone : String)
    (acc : List Rec) (log : List ApiCall) : List Rec → OpResult
  | [] => { log := log, recs := acc, err := none }
  | r :: rs =>
    let r1 := floorTTL r
    let p := payload1For creds zone r1
    let call := ApiCall.create (trimZone zone) p
    match env.create (trimZone zone) p with
    | .error msg => { log := log ++ [call], recs := [], err := some (.transport msg) }
    | .ok st =>
      if st.status ≠ "SUCCESS" then
        { log := log ++ [call], recs := [], err := some (.invalidStatus st.status) }
      else
        appendRecords1Aux env creds zone (acc ++ [r1]) (log ++ [call]) rs

/-- `AppendRecords` of the first iteration. -/
def appendRecords1 (env : ApiEnv) (creds : ApiCredentials) (zone : String)
    (records : List Rec) : OpResult :=
  appendRecords1Aux env creds zone [] [] records

/-- `UpdateRecords` of the first iteration (provider.go, lines 140-169):
`dns/editByNameType/{zone}/{type}/{name}` per record. A transport error is
returned; a non-`SUCCESS` status executes `return nil, err` with `err` nil,
reporting no error. -/
def updateRecords1Aux (env : ApiEnv) (creds : ApiCredentials) (zone : String)
    (acc : List Rec) (log : List ApiCall) : List Rec → OpResult
  | [] => { log := log, recs := acc, err := none }
  | r :: rs =>
    let r1 := floorTTL r
    let p : UpdatePayload1 :=
      { creds := creds, content := r.value, ttl := toString (Int.tdiv r1.ttl nsPerSec) }
    let call := ApiCall.editByNameType (trimZone zone) r.type (relativeNameV0 r.name zone) p
    match env.editByNameType (trimZone zone) r.type (relativeNameV0 r.name zone) p with
    | .error msg => { log := log ++ [call], recs := [], err := some (.transport msg) }
    | .ok st =>
      if st.status ≠ "SUCCESS" then
        { log := log ++ [call], recs := [], err := none }
      else
        updateRecords1Aux env creds zone (acc ++ [r1]) (log ++ [call]) rs

/-- `UpdateRecords` of the first iteration. -/
def updateRecords1 (env : ApiEnv) (creds : ApiCredentials) (zone : String)
    (records : List Rec) : OpResult :=
  updateRecords1Aux env creds zone [] [] records

/-- The partition of the first iteration's `SetRecords` (provider.go, lines
179-192): a coordinate set is built from the existing records and each input
record goes to the update list exactly when its verbatim coordinate is in the
set. Returns `(creates, updates)`, each in input order. -/
def partition1 (existing records : List Rec) : List Rec × List Rec :=
  let coords := existing.map recordCoordinates
  (records.filter (fun r => ¬ coords.contains (recordCoordinates r)),
   records.filter (fun r => coords.contains (recordCoordinates r)))

/-- `SetRecords` of the first iteration (provider.go, lines 173-204): fetch
the zone's records, partition by coordinate membership, create then update;
on success the input list itself is returned. -/
def setRecords1 (env : ApiEnv) (creds : ApiCredentials) (zone : String)
    (records : List Rec) : OpResult :=
  let (glog, gres) := getRecords1 env creds zone
  match gres with
  | .error e => { log := glog, recs := [], err := some e }
  | .ok existing =>
    let (creates, updates) := partition1 existing records
    let a := appendRecords1 env creds zone creates
    match a.err with
    | some e => { log := glog ++ a.log, recs := [], err := some e }
    | none =>
      let u := updateRecords1 env creds zone updates
      match u.err with
      | some e => { log := glog ++ a.log ++ u.log, recs := [], err := some e }
      | none => { log := glog ++ a.log ++ u.log, recs := records, err := none }

/-! ## Newest translator (`models.go` second half, typed records) -/

/-- The typed normalized records of the newest iteration
(`libdns.Address`, `CAA`, `CNAME`, `SRV`, `TXT`). TTLs are nanoseconds;
`flags`, `priority` carry the converted `uint8` / `uint16` values. -/
inductive LibRecord
  | address (name : String) (ttl : Int) (ip : String)
  | caa (name : String) (ttl : Int) (flags : Int) (tag : String) (value : String)
  | cname (name : String) (ttl : Int) (target : String)
  | srv (service : String) (transport : String) (name : String) (ttl : Int)
      (priority : Int) (weight : Int) (port : Int) (target : String)
  | txt (name : String) (ttl : Int) (text : String)
  deriving DecidableEq, Repr

/-- Outcome of a Go function returning `(T, error)` that can additionally
panic at runtime: `ok`, a non-nil `error`, or a `panic`. -/
inductive GoResult (α : Type)
  | ok (a : α)
  | err (e : String)
  | panic (msg : String)
  deriving DecidableEq, Repr

/-- `pkbnRecord.toLibdnsRecord` of the newest iteration (models.go, lines
113-173). `netip.ParseAddr` belongs to the Go standard library and is passed
in as `parseIP` (none of the proved properties depend on it). List indexing
is modelled exactly: an access past the end of `contentParts` is a runtime
panic, not an error return. The SRV branch fills service, transport, weight,
port and target with zero values and parses only the priority. -/
def toLibdnsRecordNew (parseIP : String → Except String String)
    (record : PkbnRecord) (zone : String) : GoResult LibRecord :=
  let name := relativeName record.name zone
  match parseTTLns record.ttl with
  | none => .err ("time: invalid duration " ++ record.ttl ++ "s")
  | some ttl =>
    if record.type = "A" ∨ record.type = "AAAA" then
      match parseIP record.content with
      | .error e => .err e
      | .ok ip => .ok (.address name ttl ip)
    else if record.type = "CAA" then
      let contentParts := goSplitN record.content ' ' 3
      match contentParts.get? 0 with
      | none => .panic "index out of range"
      | some p0 =>
        match goAtoi p0 with
        | none => .err ("strconv.Atoi: parsing " ++ p0)
        | some flags =>
          match contentParts.get? 1 with
          | none => .panic "index out of range"
          | some tag =>
            match contentParts.get? 2 with
            | none => .panic "index out of range"
            | some value => .ok (.caa name ttl (goUint8 flags) tag value)
    else if record.type = "CNAME" then
      .ok (.cname name ttl record.content)
    else if record.type = "SRV" then
      match goAtoi record.prio with
      | none => .err ("strconv.Atoi: parsing " ++ record.prio)
      | some priority => .ok (.srv "" "" name ttl (goUint16 priority) 0 0 "")
    else if record.type = "TXT" then
      .ok (.txt name ttl record.content)
    else
      .err ("Unsupported record type: " ++ record.type)

/-! ## Basic lemmas -/

theorem nsPerSec_pos : (0 : Int) < nsPerSec := by decide

/-- Go's `record.TTL/time.Second < 600` test is exactly "the duration is below
600 seconds". -/
theorem tdiv_lt_600_iff (t : Int) : Int.tdiv t nsPerSec < 600 ↔ t < 600 * nsPerSec := by
  rcases le_or_lt 0 t with h | h
  · rw [Int.tdiv_eq_ediv h (by decide : (0:Int) ≤ nsPerSec)]
    exact Int.ediv_lt_iff_lt_mul nsPerSec_pos
  · constructor
    · intro _
      exact lt_of_lt_of_le h (by decide)
    · intro _
      have h1 : Int.tdiv t nsPerSec = -(Int.tdiv (-t) nsPerSec) := by
        rw [← Int.neg_tdiv, neg_neg]
      have h2 : 0 ≤ Int.tdiv (-t) nsPerSec :=
        Int.tdiv_nonneg (by omega) (by decide)
      omega

@[simp] theorem floorTTL_id (r : Rec) : (floorTTL r).id = r.id := by
  unfold floorTTL; split <;> rfl

@[simp] theorem floorTTL_name (r : Rec) : (floorTTL r).name = r.name := by
  unfold floorTTL; split <;> rfl

@[simp] theorem floorTTL_type (r : Rec) : (floorTTL r).type = r.type := by
  unfold floorTTL; split <;> rfl

@[simp] theorem floorTTL_value (r : Rec) : (floorTTL r).value = r.value := by
  unfold floorTTL; split <;> rfl

theorem floorTTL_ttl_of_lt {r : Rec} (h : r.ttl < 600 * nsPerSec) :
    (floorTTL r).ttl = 600 * nsPerSec := by
  unfold floorTTL
  rw [if_pos ((tdiv_lt_600_iff r.ttl).2 h)]

theorem floorTTL_ttl_of_ge {r : Rec} (h : 600 * nsPerSec ≤ r.ttl) :
    floorTTL r = r := by
  unfold floorTTL
  rw [if_neg]
  intro hlt
  exact absurd ((tdiv_lt_600_iff r.ttl).1 hlt) (not_lt.2 h)

/-- The serialised TTL of the floored record: `"600"` below the floor, the
whole-second count otherwise. -/
theorem payloadFor_floor_ttl (creds : ApiCredentials) (zone : String) (r : Rec) :
    (r.ttl < 600 * nsPerSec → (payloadFor creds zone (floorTTL r)).ttl = "600") ∧
    (600 * nsPerSec ≤ r.ttl →
      (payloadFor creds zone (floorTTL r)).ttl = toString (Int.tdiv r.ttl nsPerSec)) := by
  constructor
  · intro h
    show toString (Int.tdiv (floorTTL r).ttl nsPerSec) = "600"
    rw [floorTTL_ttl_of_lt h]
    decide
  · intro h
    show toString (Int.tdiv (floorTTL r).ttl nsPerSec) = _
    rw [floorTTL_ttl_of_ge h]

/-- Same statement for the first iteration's update request body. -/
theorem updatePayload1_floor_ttl (creds : ApiCredentials) (zone : String) (r : Rec) :
    (r.ttl < 600 * nsPerSec → toString (Int.tdiv (floorTTL r).ttl nsPerSec) = "600") ∧
    (600 * nsPerSec ≤ r.ttl →
      toString (Int.tdiv (floorTTL r).ttl nsPerSec) = toString (Int.tdiv r.ttl nsPerSec)) := by
  constructor
  · intro h
    rw [floorTTL_ttl_of_lt h]
    decide
  · intro h
    rw [floorTTL_ttl_of_ge h]

/-- The reported record keeps the floored TTL: the best-effort id patch does
not change it. -/
theorem appendFinalize_ttl (env : ApiEnv) (creds : ApiCredentials) (zone : String)
    (r : Rec) : (appendFinalize env creds zone r).ttl = (floorTTL r).ttl := by
  unfold appendFinalize
  split <;> rfl

/-- `getMatchingRecord` issues exactly one lookup request. -/
theorem getMatchingRecord_log (env : ApiEnv) (creds : ApiCredentials) (r : Rec)
    (zone : String) : (getMatchingRecord env creds r zone).log
      = [ApiCall.retrieveByNameType (trimZone zone) r.type (wireName r.name zone)] := by
  unfold getMatchingRecord
  split <;> rfl

/-- Every create request in the later `AppendRecords` log is the serialised
form of one of the inputs (with the TTL floor applied). -/
theorem appendRecordsAux_create_mem (env : ApiEnv) (creds : ApiCredentials)
    (zone : String) :
    ∀ (rs acc : List Rec) (log : List ApiCall) (z : String) (p : Payload),
      ApiCall.create z p ∈ (appendRecordsAux env creds zone acc log rs).log →
      ApiCall.create z p ∈ log ∨
        ∃ r ∈ rs, z = trimZone zone ∧ p = payloadFor creds zone (floorTTL r) := by
  intro rs
  induction rs with
  | nil =>
    intro acc log z p h
    exact Or.inl h
  | cons r rs ih =>
    intro acc log z p h
    simp only [appendRecordsAux] at h
    split at h
    · rename_i msg _
      rw [List.mem_append] at h
      rcases h with h | h
      · exact Or.inl h
      · simp only [List.mem_singleton, ApiCall.create.injEq] at h
        exact Or.inr ⟨r, List.mem_cons_self r rs, h.1, h.2⟩
    · rename_i st _
      split at h
      · rw [List.mem_append] at h
        rcases h with h | h
        · exact Or.inl h
        · simp only [List.mem_singleton, ApiCall.create.injEq] at h
          exact Or.inr ⟨r, List.mem_cons_self r rs, h.1, h.2⟩
      · rcases ih _ _ z p h with h' | ⟨r', hr', hz, hp⟩
        · rw [List.mem_append, List.mem_append] at h'
          rcases h' with (h' | h') | h'
          · exact Or.inl h'
          · simp only [List.mem_singleton, ApiCall.create.injEq] at h'
            exact Or.inr ⟨r, List.mem_cons_self r rs, h'.1, h'.2⟩
          · rw [getMatchingRecord_log] at h'
            simp at h'
        · exact Or.inr ⟨r', List.mem_cons_of_mem r hr', hz, hp⟩

/-- Every edit request in the later `updateRecords` log is the serialised form
of one of the inputs (with the TTL floor applied), addressed by its id. -/
theorem updateRecordsAux_edit_mem (env : ApiEnv) (creds : ApiCredentials)
    (zone : String) :
    ∀ (rs acc : List Rec) (log : List ApiCall) (z i : String) (p : Payload),
      ApiCall.edit z i p ∈ (updateRecordsAux env creds zone acc log rs).log →
      ApiCall.edit z i p ∈ log ∨
        ∃ r ∈ rs, z = trimZone zone ∧ i = r.id ∧ p = payloadFor creds zone (floorTTL r) := by
  intro rs
  induction rs with
  | nil =>
    intro acc log z i p h
    exact Or.inl h
  | cons r rs ih =>
    intro acc log z i p h
    simp only [updateRecordsAux] at h
    split at h
    · rename_i msg _
      rw [List.mem_append] at h
      rcases h with h | h
      · exact Or.inl h
      · simp only [List.mem_singleton, ApiCall.edit.injEq] at h
        exact Or.inr ⟨r, List.mem_cons_self r rs, h.1, h.2.1, h.2.2⟩
    · rename_i st _
      split at h
      · rw [List.mem_append] at h
        rcases h with h | h
        · exact Or.inl h
        · simp only [List.mem_singleton, ApiCall.edit.injEq] at h
          exact Or.inr ⟨r, List.mem_cons_self r rs, h.1, h.2.1, h.2.2⟩
      · rcases ih _ _ z i p h with h' | ⟨r', hr', hz, hi, hp⟩
        · rw [List.mem_append] at h'
          rcases h' with h' | h'
          · exact Or.inl h'
          · simp only [List.mem_singleton, ApiCall.edit.injEq] at h'
            exact Or.inr ⟨r, List.mem_cons_self r rs, h'.1, h'.2.1, h'.2.2⟩
        · exact Or.inr ⟨r', List.mem_cons_of_mem r hr', hz, hi, hp⟩

/-- On a fully successful run the later `AppendRecords` reports exactly the
finalized form of every input, in order. -/
theorem appendRecordsAux_ok_recs (env : ApiEnv) (creds : ApiCredentials)
    (zone : String) :
    ∀ (rs acc : List Rec) (log : List ApiCall),
      (appendRecordsAux env creds zone acc log rs).err = none →
      (appendRecordsAux env creds zone acc log rs).recs
        = acc ++ rs.map (appendFinalize env creds zone) := by
  intro rs
  induction rs with
  | nil =>
    intro acc log _
    simp [appendRecordsAux]
  | cons r rs ih =>
    intro acc log h
    rw [appendRecordsAux] at h ⊢
    cases henv : env.create (trimZone zone) (payloadFor creds zone (floorTTL r)) with
    | error msg =>
      simp only [henv] at h
      simp at h
    | ok st =>
      simp only [henv] at h ⊢
      by_cases hst : st.status = "SUCCESS"
      · simp only [hst, ne_eq, not_true_eq_false, if_false] at h ⊢
        rw [ih _ _ h]
        simp
      · simp only [ne_eq, hst, not_false_eq_true, if_true] at h
        simp at h

/-! ## Shared test fixtures -/

/-- Concrete credentials for concrete evaluations. -/
def credsX : ApiCredentials := { apikey := "k", secretapikey := "s" }

/-- An IP parser stand-in for branches that never consult it. -/
def ipFail : String → Except String String := fun _ => .error "unused"

/-! ## C2: swallowed application-level failures -/

/-- An environment whose mutating endpoints all answer with HTTP success but
application status `"ERROR"`, and whose listing endpoints succeed. -/
def envErrStatus : ApiEnv :=
  { retrieve := fun _ => .ok { status := "SUCCESS", records := [] }
    retrieveByNameType := fun _ _ _ => .ok { status := "SUCCESS", records := [] }
    create := fun _ _ => .ok { status := "ERROR", message := "denied" }
    edit := fun _ _ _ => .ok { status := "ERROR", message := "denied" }
    editByNameType := fun _ _ _ _ => .ok { status := "ERROR", message := "denied" }
    deleteById := fun _ _ => .ok { status := "ERROR", message := "denied" }
    ping := .ok { status := "ERROR", yourIP := "" } }

/-- A record carrying a provider id, as the update and delete paths expect. -/
def recWithId : Rec :=
  { id := "7", name := "a.example.com.", priority := 0,
    ttl := 600 * nsPerSec, type := "TXT", value := "v" }

/-- C2 (code bug): when the decoded response's status is `"ERROR"` rather than
the success marker, `updateRecords` and `CheckCredentials` execute
`return nil, err` with `err` still nil, and `DeleteRecords` never inspects the
status at all — each of the three returns without any error, and
`DeleteRecords` even reports the record as deleted, contradicting the
requirement that every non-success application status surfaces as a non-nil
error. -/
theorem c2_app_failures_swallowed :
    (updateRecords envErrStatus credsX "example.com." [recWithId]).err = none
  ∧ (updateRecords envErrStatus credsX "example.com." [recWithId]).recs = []
  ∧ checkCredentials envErrStatus credsX = ([ApiCall.ping], "", none)
  ∧ (deleteRecords envErrStatus credsX "example.com." [recWithId]).err = none
  ∧ (deleteRecords envErrStatus credsX "example.com." [recWithId]).recs = [recWithId]
  ∧ envErrStatus.edit "example.com" "7" (payloadFor credsX "example.com." recWithId)
      = .ok { status := "ERROR", message := "denied" }
  ∧ envErrStatus.deleteById "example.com" "7"
      = .ok { status := "ERROR", message := "denied" } := by
  refine ⟨?_, ?_, ?_, ?_, ?_, ?_, ?_⟩ <;> decide

/-! ## C3: SRV translation of the newest translator -/

/-- The SRV wire record of the specification's example and of the repository's
own unit test. -/
def srvWireRec : PkbnRecord :=
  { content := "1 993 imap.example.com", id := "", name := "_imaps._tcp.example.com",
    notes := "", prio := "10", ttl := "300", type := "SRV" }

/-- C3 (code bug): translating the SRV wire record
`{content:"1 993 imap.example.com", prio:"10", name:"_imaps._tcp.example.com"}`
in zone `example.com` does NOT produce the normalized record the spec and the
repository's unit test demand: the code parses only the priority and returns
empty service, transport and target, zero weight and port, and the
underscore-prefixed relative name `"_imaps._tcp"` instead of `"example.com"`. -/
theorem c3_srv_translation_zeroed :
    toLibdnsRecordNew ipFail srvWireRec "example.com"
      = .ok (.srv "" "" "_imaps._tcp" 300000000000 10 0 0 "")
  ∧ toLibdnsRecordNew ipFail srvWireRec "example.com"
      ≠ .ok (.srv "imaps" "tcp" "example.com" 300000000000 10 1 993 "imap.example.com") := by
  refine ⟨?_, ?_⟩ <;> decide

/-! ## C6: CAA translation of the newest translator -/

/-- A CAA wire record with the given content field. -/
def caaWireRec (content : String) : PkbnRecord :=
  { content := content, id := "", name := "test.example.com",
    notes := "", prio := "0", ttl := "300", type := "CAA" }

/-- C6 (code bug): the CAA content is split into at most three parts with the
value keeping its embedded spaces, and a non-numeric flags field is an error —
but content with fewer than three space-separated fields does not yield an
error: the unguarded `contentParts[2]` (or `contentParts[1]`) access is an
index-out-of-range panic, so the operation crashes instead of returning an
error. -/
theorem c6_caa_translation_panics :
    toLibdnsRecordNew ipFail (caaWireRec "0 issue letsencrypt.org; account=123") "example.com"
      = .ok (.caa "test" 300000000000 0 "issue" "letsencrypt.org; account=123")
  ∧ toLibdnsRecordNew ipFail (caaWireRec "0 issue") "example.com"
      = .panic "index out of range"
  ∧ toLibdnsRecordNew ipFail (caaWireRec "x issue ca") "example.com"
      = .err "strconv.Atoi: parsing x" := by
  refine ⟨?_, ?_, ?_⟩ <;> decide

/-! ## C1: create-vs-update classification of SetRecords -/

/-- An environment describing a zone with no records at all; every request
succeeds. -/
def envEmptyZone : ApiEnv :=
  { retrieve := fun _ => .ok { status := "SUCCESS", records := [] }
    retrieveByNameType := fun _ _ _ => .ok { status := "SUCCESS", records := [] }
    create := fun _ _ => .ok { status := "SUCCESS", message := "" }
    edit := fun _ _ _ => .ok { status := "SUCCESS", message := "" }
    editByNameType := fun _ _ _ _ => .ok { status := "SUCCESS", message := "" }
    deleteById := fun _ _ => .ok { status := "SUCCESS", message := "" }
    ping := .ok { status := "SUCCESS", yourIP := "" } }

/-- An input record that carries a provider id for a coordinate that does not
exist in the zone. -/
def recStaleId : Rec :=
  { id := "39", name := "host.example.com.", priority := 0,
    ttl := 600 * nsPerSec, type := "TXT", value := "v" }

/-- C1 (counterexample): in the later iteration, `SetRecords` routes a record
carrying a non-empty id to the update path unconditionally — here the zone is
empty (both the listing and the by-name-type lookup return no records), no
record with the input's (name, type) coordinate exists, yet the call issues a
single `dns/edit` request and no create; no listing is fetched at the start of
the call either. -/
theorem c1_counterexample :
    (setRecords envEmptyZone credsX "example.com." [recStaleId]).log
      = [ApiCall.edit "example.com" "39" (payloadFor credsX "example.com." (floorTTL recStaleId))]
  ∧ envEmptyZone.retrieveByNameType "example.com" "TXT" "host"
      = .ok { status := "SUCCESS", records := [] }
  ∧ envEmptyZone.retrieve "example.com" = .ok { status := "SUCCESS", records := [] } := by
  refine ⟨?_, ?_, ?_⟩ <;> decide

/-! ## C7: apex name mapping -/

/-- A wire record whose name equals the zone itself. -/
def apexWireRec : PkbnRecord :=
  { content := "v", id := "1", name := "example.com",
    notes := "", prio := "0", ttl := "600", type := "TXT" }

/-- A zone listing containing only the apex wire record. -/
def envGetApex : ApiEnv :=
  { envEmptyZone with retrieve := fun _ => .ok { status := "SUCCESS", records := [apexWireRec] } }

/-- C7 (counterexample): the first iteration's `GetRecords` does not map a
wire record whose name equals the zone back to `"@"` — it reports the
absolute name `"example.com."` (the wire name with a dot appended), so the
claimed bidirectional mapping fails for that operation. -/
theorem c7_counterexample :
    (getRecords1 envGetApex credsX "example.com.").2
      = .ok [{ id := "1", name := "example.com.", priority := 0,
               ttl := 600 * nsPerSec, type := "TXT", value := "v" }]
  ∧ ("example.com." ≠ "@") := by
  refine ⟨?_, ?_⟩ <;> decide

/-! ## C8: abort behaviour of AppendRecords -/

/-- An environment whose create endpoint accepts the record with content
`"v1"` and rejects (application status `"ERROR"`) everything else. -/
def envFirstOk : ApiEnv :=
  { retrieve := fun _ => .ok { status := "SUCCESS", records := [] }
    retrieveByNameType := fun _ _ _ => .ok { status := "SUCCESS", records := [] }
    create := fun _ p =>
      if p.content = "v1" then .ok { status := "SUCCESS", message := "" }
      else .ok { status := "ERROR", message := "denied" }
    edit := fun _ _ _ => .ok { status := "SUCCESS", message := "" }
    editByNameType := fun _ _ _ _ => .ok { status := "SUCCESS", message := "" }
    deleteById := fun _ _ => .ok { status := "SUCCESS", message := "" }
    ping := .ok { status := "SUCCESS", yourIP := "" } }

/-- First input record (its create succeeds). -/
def recOkFirst : Rec :=
  { id := "", name := "a.example.com.", priority := 0,
    ttl := 600 * nsPerSec, type := "TXT", value := "v1" }

/-- Second input record (its create is rejected). -/
def recBadSecond : Rec :=
  { id := "", name := "b.example.com.", priority := 0,
    ttl := 600 * nsPerSec, type := "TXT", value := "v2" }

/-- C8 (counterexample): in the earlier design iteration, `AppendRecords`
given two records whose first create succeeds (the provider answered
`SUCCESS`) and whose second create fails stops immediately — but it returns
`nil` together with the error, not the record successfully created before the
failure, contradicting the claim that every design iteration returns the
partial result. -/
theorem c8_counterexample :
    (appendRecords1 envFirstOk credsX "example.com." [recOkFirst, recBadSecond]).recs = []
  ∧ (appendRecords1 envFirstOk credsX "example.com." [recOkFirst, recBadSecond]).err
      = some (.invalidStatus "ERROR")
  ∧ (appendRecords1 envFirstOk credsX "example.com." [recOkFirst, recBadSecond]).log
      = [ApiCall.create "example.com" (payload1For credsX "example.com." (floorTTL recOkFirst)),
         ApiCall.create "example.com" (payload1For credsX "example.com." (floorTTL recBadSecond))]
  ∧ envFirstOk.create "example.com" (payload1For credsX "example.com." (floorTTL recOkFirst))
      = .ok { status := "SUCCESS", message := "" } := by
  refine ⟨?_, ?_, ?_, ?_⟩ <;> decide

/-! ## C5: TTL floor on outgoing requests -/

/-- C5: every create request issued by the later `AppendRecords` and every
edit request issued by the update path carries, for its source record, the
TTL `"600"` when the requested TTL is below 600 seconds, and the requested
TTL in whole seconds otherwise. -/
theorem c5_ttl_floor_serialization (env : ApiEnv) (creds : ApiCredentials)
    (zone : String) (records : List Rec) (z i : String) (p : Payload)
    (h : ApiCall.create z p ∈ (appendRecords env creds zone records).log
       ∨ ApiCall.edit z i p ∈ (updateRecords env creds zone records).log) :
    ∃ r ∈ records, p = payloadFor creds zone (floorTTL r)
      ∧ (r.ttl < 600 * nsPerSec → p.ttl = "600")
      ∧ (600 * nsPerSec ≤ r.ttl → p.ttl = toString (Int.tdiv r.ttl nsPerSec)) := by
  rcases h with h | h
  · rcases appendRecordsAux_create_mem env creds zone records [] [] z p h with h' | ⟨r, hr, _, hp⟩
    · simp at h'
    · subst hp
      exact ⟨r, hr, rfl, (payloadFor_floor_ttl creds zone r).1,
             (payloadFor_floor_ttl creds zone r).2⟩
  · rcases updateRecordsAux_edit_mem env creds zone records [] [] z i p h with h' | ⟨r, hr, _, _, hp⟩
    · simp at h'
    · subst hp
      exact ⟨r, hr, rfl, (payloadFor_floor_ttl creds zone r).1,
             (payloadFor_floor_ttl creds zone r).2⟩

/-- A record asking for a 60-second TTL. -/
def rec60 : Rec :=
  { id := "", name := "t.example.com.", priority := 0,
    ttl := 60 * nsPerSec, type := "TXT", value := "w" }

/-- The request body `AppendRecords` builds for `rec60`. -/
def p60 : Payload := payloadFor credsX "example.com." (floorTTL rec60)

/-- C5 witness: the create request for a TXT record with a 60-second TTL. -/
theorem c5_witness :
    ∃ r ∈ [rec60], p60 = payloadFor credsX "example.com." (floorTTL r)
      ∧ (r.ttl < 600 * nsPerSec → p60.ttl = "600")
      ∧ (600 * nsPerSec ≤ r.ttl → p60.ttl = toString (Int.tdiv r.ttl nsPerSec)) :=
  c5_ttl_floor_serialization envEmptyZone credsX "example.com." [rec60]
    "example.com" "" p60 (Or.inl (by decide))

/-! ## C10: TTL floor on reported records -/

/-- C10: when the later `AppendRecords` succeeds, the records reported back
are exactly the finalized inputs, and every input whose requested TTL was
below 600 seconds is reported with a TTL of exactly 600 seconds. -/
theorem c10_reported_ttl_floored (env : ApiEnv) (creds : ApiCredentials)
    (zone : String) (records : List Rec)
    (h : (appendRecords env creds zone records).err = none) :
    (appendRecords env creds zone records).recs
      = records.map (appendFinalize env creds zone)
  ∧ ∀ r ∈ records, r.ttl < 600 * nsPerSec →
      (appendFinalize env creds zone r).ttl = 600 * nsPerSec := by
  constructor
  · have := appendRecordsAux_ok_recs env creds zone records [] [] h
    simpa using this
  · intro r _ hlt
    rw [appendFinalize_ttl, floorTTL_ttl_of_lt hlt]

/-- C10 witness: appending `rec60` succeeds and reports TTL 600 s. -/
theorem c10_witness :
    (appendRecords envEmptyZone credsX "example.com." [rec60]).recs
      = [rec60].map (appendFinalize envEmptyZone credsX "example.com.")
  ∧ ∀ r ∈ [rec60], r.ttl < 600 * nsPerSec →
      (appendFinalize envEmptyZone credsX "example.com." r).ttl = 600 * nsPerSec :=
  c10_reported_ttl_floored envEmptyZone credsX "example.com." [rec60] (by decide)

/-! ## C9: delete-by-lookup deletes every match -/

/-- Whether an endpoint answer is a decoded response (no transport error). -/
def exceptIsOk : Except String StatusResp → Bool
  | .ok _ => true
  | .error _ => false

/-- `deleteQueued` on all-transport-successful deletions issues one delete per
queued record, reports them all, and returns no error. -/
theorem deleteQueued_all_ok (env : ApiEnv) (zone : String) :
    ∀ (ms acc : List Rec) (log : List ApiCall),
      (∀ m ∈ ms, exceptIsOk (env.deleteById (trimZone zone) m.id) = true) →
      deleteQueued env zone acc log ms
        = { log := log ++ ms.map (fun m => ApiCall.deleteById (trimZone zone) m.id),
            recs := acc ++ ms, err := none } := by
  intro ms
  induction ms with
  | nil =>
    intro acc log _
    simp [deleteQueued]
  | cons m ms ih =>
    intro acc log hall
    rw [deleteQueued]
    cases henv : env.deleteById (trimZone zone) m.id with
    | error msg =>
      have hc := hall m (List.mem_cons_self m ms)
      rw [henv] at hc
      simp [exceptIsOk] at hc
    | ok st =>
      simp only [henv]
      rw [ih (acc ++ [m]) _ (fun m' hm' => hall m' (List.mem_cons_of_mem m hm'))]
      simp

/-- C9: a record without an id whose (name, type) lookup matches `ms`
(`ms ≠ []`) has every match deleted — one delete call per match — and every
match reported in the returned records, with no error. -/
theorem c9_delete_all_matches (env : ApiEnv) (creds : ApiCredentials)
    (zone : String) (r : Rec) (ms : List Rec)
    (hid : r.id = "")
    (hm : (getMatchingRecord env creds r zone).res = .ok ms)
    (hne : ms ≠ [])
    (hdel : ∀ m ∈ ms, exceptIsOk (env.deleteById (trimZone zone) m.id) = true) :
    (deleteRecords env creds zone [r]).recs = ms
  ∧ (deleteRecords env creds zone [r]).err = none
  ∧ (deleteRecords env creds zone [r]).log
      = (getMatchingRecord env creds r zone).log
        ++ ms.map (fun m => ApiCall.deleteById (trimZone zone) m.id) := by
  unfold deleteRecords
  rw [deleteRecordsAux, if_pos hid]
  simp only [hm]
  rw [deleteQueued_all_ok env zone ms [] _ hdel]
  rw [deleteRecordsAux]
  simp

/-- A wire record with the given id at the looked-up coordinate. -/
def wireMatch (i : String) : PkbnRecord :=
  { content := "v", id := i, name := "m.example.com",
    notes := "", prio := "0", ttl := "600", type := "TXT" }

/-- A zone in which the lookup finds three records; deletions succeed. -/
def envThreeMatches : ApiEnv :=
  { envEmptyZone with
    retrieveByNameType := fun _ _ _ =>
      .ok { status := "SUCCESS", records := [wireMatch "1", wireMatch "2", wireMatch "3"] } }

/-- The id-less input record for the three-match deletion. -/
def recNoId : Rec :=
  { id := "", name := "m.example.com.", priority := 0,
    ttl := 600 * nsPerSec, type := "TXT", value := "v" }

/-- The three matches as translated records. -/
def ms3 : List Rec :=
  [wireMatch "1", wireMatch "2", wireMatch "3"].map (toLibdnsRecordMid · "example.com.")

/-- C9 witness: a lookup matching 3 records deletes all 3 and reports 3
deleted records. -/
theorem c9_witness :
    (deleteRecords envThreeMatches credsX "example.com." [recNoId]).recs = ms3
  ∧ (deleteRecords envThreeMatches credsX "example.com." [recNoId]).err = none
  ∧ (deleteRecords envThreeMatches credsX "example.com." [recNoId]).log
      = (getMatchingRecord envThreeMatches credsX recNoId "example.com.").log
        ++ ms3.map (fun m => ApiCall.deleteById (trimZone "example.com.") m.id) :=
  c9_delete_all_matches envThreeMatches credsX "example.com." recNoId ms3
    rfl (by decide) (by decide) (by decide)

/-! ## C4: ambiguous (name, type) lookup aborts SetRecords -/

/-- Calls that only read from the provider. -/
def isLookupCall : ApiCall → Bool
  | .retrieve _ => true
  | .retrieveByNameType _ _ _ => true
  | _ => false

/-- The match list of a record's (name, type) lookup (empty on transport
failure). -/
def gmList (env : ApiEnv) (creds : ApiCredentials) (zone : String) (r : Rec) :
    List Rec :=
  match (getMatchingRecord env creds r zone).res with
  | .ok l => l
  | .error _ => []

/-- Whether a record's (name, type) lookup succeeded at the transport level. -/
def gmOk (env : ApiEnv) (creds : ApiCredentials) (zone : String) (r : Rec) :
    Bool :=
  match (getMatchingRecord env creds r zone).res with
  | .ok _ => true
  | .error _ => false

/-- The classification phase of the later `SetRecords` issues only lookup
requests. -/
theorem setClassify_log_lookups (env : ApiEnv) (creds : ApiCredentials)
    (zone : String) :
    ∀ rs : List Rec, (setClassify env creds zone rs).1.all isLookupCall = true := by
  intro rs
  induction rs with
  | nil => rfl
  | cons r rs ih =>
    rcases hcl : setClassify env creds zone rs with ⟨log', res'⟩
    by_cases hid : r.id = ""
    · rw [setClassify, if_pos hid]
      cases hg : (getMatchingRecord env creds r zone).res with
      | error e =>
        simp only [hg, getMatchingRecord_log, List.all_cons, List.all_nil,
          isLookupCall, Bool.and_true]
      | ok ms =>
        rcases ms with _ | ⟨m, _ | ⟨m', ms'⟩⟩ <;>
          simp_all [hcl, getMatchingRecord_log, List.all_append, isLookupCall]
    · rw [setClassify, if_neg hid]
      simp only [hcl] at ih ⊢
      exact ih

/-- When every lookup of an id-less input succeeds and some id-less input has
at least two matches, the classification fails with the ambiguous-match error
for such an input. -/
theorem setClassify_err_ambiguous (env : ApiEnv) (creds : ApiCredentials)
    (zone : String) :
    ∀ rs : List Rec,
      (∀ r ∈ rs, r.id = "" → gmOk env creds zone r = true) →
      (∃ r ∈ rs, r.id = "" ∧ 2 ≤ (gmList env creds zone r).length) →
      ∃ r', r' ∈ rs ∧ r'.id = "" ∧ 2 ≤ (gmList env creds zone r').length ∧
        (setClassify env creds zone rs).2 = .error (.ambiguousMatch r') := by
  intro rs
  induction rs with
  | nil =>
    intro _ hamb
    simp at hamb
  | cons r rs ih =>
    intro hok hamb
    rcases hcl : setClassify env creds zone rs with ⟨log', res'⟩
    by_cases hid : r.id = ""
    · cases hg : (getMatchingRecord env creds r zone).res with
      | error e =>
        have := hok r (List.mem_cons_self r rs) hid
        rw [gmOk, hg] at this
        simp at this
      | ok ms =>
        rcases ms with _ | ⟨m, _ | ⟨m', ms'⟩⟩
        · have hrec : ∃ r0 ∈ rs, r0.id = "" ∧ 2 ≤ (gmList env creds zone r0).length := by
            rcases hamb with ⟨r0, hr0, hid0, hlen0⟩
            rcases List.mem_cons.1 hr0 with rfl | hr0'
            · rw [gmList, hg] at hlen0
              simp at hlen0
            · exact ⟨r0, hr0', hid0, hlen0⟩
          obtain ⟨r', hr', hid', hlen', herr⟩ :=
            ih (fun r0 h0 => hok r0 (List.mem_cons_of_mem r h0)) hrec
          refine ⟨r', List.mem_cons_of_mem r hr', hid', hlen', ?_⟩
          rw [setClassify, if_pos hid]
          simp only [hg, hcl]
          rw [hcl] at herr
          simp only at herr
          rw [herr]
          rfl
        · have hrec : ∃ r0 ∈ rs, r0.id = "" ∧ 2 ≤ (gmList env creds zone r0).length := by
            rcases hamb with ⟨r0, hr0, hid0, hlen0⟩
            rcases List.mem_cons.1 hr0 with rfl | hr0'
            · rw [gmList, hg] at hlen0
              simp at hlen0
            · exact ⟨r0, hr0', hid0, hlen0⟩
          obtain ⟨r', hr', hid', hlen', herr⟩ :=
            ih (fun r0 h0 => hok r0 (List.mem_cons_of_mem r h0)) hrec
          refine ⟨r', List.mem_cons_of_mem r hr', hid', hlen', ?_⟩
          rw [setClassify, if_pos hid]
          simp only [hg, hcl]
          rw [hcl] at herr
          simp only at herr
          rw [herr]
          rfl
        · refine ⟨r, List.mem_cons_self r rs, hid, ?_, ?_⟩
          · rw [gmList, hg]
            simp
          · rw [setClassify, if_pos hid]
            simp only [hg]
    · have hrec : ∃ r0 ∈ rs, r0.id = "" ∧ 2 ≤ (gmList env creds zone r0).length := by
        rcases hamb with ⟨r0, hr0, hid0, hlen0⟩
        rcases List.mem_cons.1 hr0 with rfl | hr0'
        · exact absurd hid0 hid
        · exact ⟨r0, hr0', hid0, hlen0⟩
      obtain ⟨r', hr', hid', hlen', herr⟩ :=
        ih (fun r0 h0 => hok r0 (List.mem_cons_of_mem r h0)) hrec
      refine ⟨r', List.mem_cons_of_mem r hr', hid', hlen', ?_⟩
      rw [setClassify, if_neg hid]
      simp only [hcl]
      rw [hcl] at herr
      simp only at herr
      rw [herr]
      rfl

/-- C4: when `SetRecords` resolves an id-less input by a (name, type) lookup
and some such input has more than one match (all lookups reaching the
provider), the call fails with the ambiguous-match error for such a record,
returns no records, and issues no create, edit or delete request at all. -/
theorem c4_ambiguous_match_aborts (env : ApiEnv) (creds : ApiCredentials)
    (zone : String) (records : List Rec)
    (hok : ∀ r ∈ records, r.id = "" → gmOk env creds zone r = true)
    (hamb : ∃ r ∈ records, r.id = "" ∧ 2 ≤ (gmList env creds zone r).length) :
    ∃ r', r' ∈ records ∧ r'.id = "" ∧ 2 ≤ (gmList env creds zone r').length
      ∧ (setRecords env creds zone records).err = some (.ambiguousMatch r')
      ∧ (setRecords env creds zone records).recs = []
      ∧ (setRecords env creds zone records).log.all isLookupCall = true := by
  obtain ⟨r', hr', hid', hlen', herr⟩ := setClassify_err_ambiguous env creds zone records hok hamb
  have hlog := setClassify_log_lookups env creds zone records
  rcases hcl : setClassify env creds zone records with ⟨clog, cres⟩
  rw [hcl] at herr hlog
  simp only at herr hlog
  refine ⟨r', hr', hid', hlen', ?_, ?_, ?_⟩
  · rw [setRecords, hcl]
    simp only [herr]
  · rw [setRecords, hcl]
    simp only [herr]
  · rw [setRecords, hcl]
    simp only [herr]
    exact hlog

/-- A zone in which the by-name-type lookup finds two records. -/
def envTwoMatches : ApiEnv :=
  { envEmptyZone with
    retrieveByNameType := fun _ _ _ =>
      .ok { status := "SUCCESS", records := [wireMatch "1", wireMatch "2"] } }

/-- C4 witness: an id-less record whose lookup matches two existing records
makes `SetRecords` fail without mutating anything. -/
theorem c4_witness :
    ∃ r', r' ∈ [recNoId] ∧ r'.id = ""
      ∧ 2 ≤ (gmList envTwoMatches credsX "example.com." r').length
      ∧ (setRecords envTwoMatches credsX "example.com." [recNoId]).err
          = some (.ambiguousMatch r')
      ∧ (setRecords envTwoMatches credsX "example.com." [recNoId]).recs = []
      ∧ (setRecords envTwoMatches credsX "example.com." [recNoId]).log.all isLookupCall
          = true :=
  c4_ambiguous_match_aborts envTwoMatches credsX "example.com." [recNoId]
    (by decide) (by decide)

/-! ## C1 (amended): how SetRecords actually classifies -/

/-- The coordinate string the first iteration's `GetRecords` output produces
for a wire record: the verbatim wire name with a trailing dot appended,
joined with the type. -/
def coordOfWire1 (w : PkbnRecord) : String :=
  (w.name ++ ".") ++ "-" ++ w.type

/-- The coordinates of the first iteration's translated listing are built from
the verbatim wire names (plus trailing dot), not from zone-relative names. -/
theorem translateRecords1_coords :
    ∀ (ws : List PkbnRecord) (ex : List Rec), translateRecords1 ws = .ok ex →
      ex.map recordCoordinates = ws.map coordOfWire1 := by
  intro ws
  induction ws with
  | nil =>
    intro ex h
    rw [translateRecords1] at h
    cases h
    rfl
  | cons w ws ih =>
    intro ex h
    rw [translateRecords1] at h
    cases hp : parseTTLns w.ttl with
    | none =>
      rw [hp] at h
      cases h
    | some t =>
      rw [hp] at h
      cases hrec : translateRecords1 ws with
      | error e =>
        rw [hrec] at h
        cases h
      | ok rest =>
        rw [hrec] at h
        cases h
        simp only [List.map_cons, ih rest hrec]
        rfl

/-- Characterization of a successful classification in the later
`SetRecords`: the create list consists exactly of the id-less inputs whose
lookup returned no match, and the update list of the inputs with an id
(kept as-is) or with exactly one match (id patched in), in input order. -/
theorem setClassify_ok_partition (env : ApiEnv) (creds : ApiCredentials)
    (zone : String) :
    ∀ (rs cs us : List Rec), (setClassify env creds zone rs).2 = .ok (cs, us) →
      cs = rs.filter (fun r =>
          r.id == "" && ((getMatchingRecord env creds r zone).res == Except.ok ([] : List Rec)))
    ∧ us = rs.filterMap (fun r =>
          if r.id = "" then
            match (getMatchingRecord env creds r zone).res with
            | .ok [m] => some { r with id := m.id }
            | _ => none
          else some r) := by
  intro rs
  induction rs with
  | nil =>
    intro cs us h
    rw [setClassify] at h
    cases h
    exact ⟨rfl, rfl⟩
  | cons r rs ih =>
    intro cs us h
    rcases hcl : setClassify env creds zone rs with ⟨log', res'⟩
    by_cases hid : r.id = ""
    · rw [setClassify, if_pos hid] at h
      cases hg : (getMatchingRecord env creds r zone).res with
      | error e =>
        rw [hg] at h
        cases h
      | ok ms =>
        rcases ms with _ | ⟨m, _ | ⟨m', ms'⟩⟩
        · rw [hg, hcl] at h
          simp only at h
          cases hres' : res' with
          | error e =>
            rw [hres'] at h
            cases h
          | ok cu =>
            rw [hres'] at h
            rcases cu with ⟨cs', us'⟩
            simp only [Except.map, Except.ok.injEq, Prod.mk.injEq] at h
            obtain ⟨hc, hu⟩ := h
            rw [← hc, ← hu]
            obtain ⟨h1, h2⟩ := ih cs' us' (by rw [hcl, hres'])
            constructor
            · rw [List.filter_cons]
              have : (r.id == "" &&
                  ((getMatchingRecord env creds r zone).res == Except.ok ([] : List Rec))) = true := by
                rw [hg]
                simp [hid]
              rw [if_pos this, h1]
            · rw [List.filterMap_cons]
              simp only [if_pos hid, hg]
              rw [h2]
        · rw [hg, hcl] at h
          simp only at h
          cases hres' : res' with
          | error e =>
            rw [hres'] at h
            cases h
          | ok cu =>
            rw [hres'] at h
            rcases cu with ⟨cs', us'⟩
            simp only [Except.map, Except.ok.injEq, Prod.mk.injEq] at h
            obtain ⟨hc, hu⟩ := h
            rw [← hc, ← hu]
            obtain ⟨h1, h2⟩ := ih cs' us' (by rw [hcl, hres'])
            constructor
            · rw [List.filter_cons]
              have : (r.id == "" &&
                  ((getMatchingRecord env creds r zone).res == Except.ok ([] : List Rec))) = false := by
                rw [hg]
                simp
              rw [this, h1]
              simp
            · rw [List.filterMap_cons]
              simp only [if_pos hid, hg]
              rw [h2]
        · rw [hg] at h
          cases h
    · rw [setClassify, if_neg hid, hcl] at h
      simp only at h
      cases hres' : res' with
      | error e =>
        rw [hres'] at h
        cases h
      | ok cu =>
        rw [hres'] at h
        rcases cu with ⟨cs', us'⟩
        simp only [Except.map, Except.ok.injEq, Prod.mk.injEq] at h
        obtain ⟨hc, hu⟩ := h
        rw [← hc, ← hu]
        obtain ⟨h1, h2⟩ := ih cs' us' (by rw [hcl, hres'])
        constructor
        · rw [List.filter_cons]
          have : (r.id == "" &&
              ((getMatchingRecord env creds r zone).res == Except.ok ([] : List Rec))) = false := by
            simp [hid]
          rw [this, h1]
          simp
        · rw [List.filterMap_cons]
          simp only [if_neg hid]
          rw [h2]

/-- C1 (amended): the classification `SetRecords` performs. In the later
iteration a record with a non-empty id is routed to the update path
unconditionally, and an id-less record is classified by a fresh per-record
(name, type) lookup: no match → create, exactly one match → update with the
matched id (more than one fails the call). In the earlier iteration the
partition tests membership of the verbatim coordinate string
`name ++ "-" ++ type` in the coordinates of the records fetched at the start
of the call, whose names are the wire names with a trailing dot appended (no
zone-relative normalization). -/
theorem c1_amended (env : ApiEnv) (creds : ApiCredentials) (zone : String)
    (records rs1 cs us : List Rec) (ws : List PkbnRecord) (ex : List Rec)
    (h2 : (setClassify env creds zone records).2 = .ok (cs, us))
    (h1 : translateRecords1 ws = .ok ex) :
    cs = records.filter (fun r =>
        r.id == "" && ((getMatchingRecord env creds r zone).res == Except.ok ([] : List Rec)))
  ∧ us = records.filterMap (fun r =>
        if r.id = "" then
          match (getMatchingRecord env creds r zone).res with
          | .ok [m] => some { r with id := m.id }
          | _ => none
        else some r)
  ∧ (partition1 ex rs1).1
      = rs1.filter (fun r => ¬ (ws.map coordOfWire1).contains (recordCoordinates r))
  ∧ (partition1 ex rs1).2
      = rs1.filter (fun r => (ws.map coordOfWire1).contains (recordCoordinates r)) := by
  obtain ⟨hcs, hus⟩ := setClassify_ok_partition env creds zone records cs us h2
  have hmap := translateRecords1_coords ws ex h1
  refine ⟨hcs, hus, ?_, ?_⟩
  · simp only [partition1, hmap]
  · simp only [partition1, hmap]

/-- The translation `translateRecords1` produces for `apexWireRec`. -/
def apexRec1 : Rec :=
  { id := "1", name := "example.com.", priority := 0,
    ttl := 600 * nsPerSec, type := "TXT", value := "v" }

/-- C1 witness: a single id-less record in an empty zone is classified as a
create by the later iteration, and the earlier partition against the apex
listing compares verbatim coordinates. -/
theorem c1_amended_witness :
    ([recNoId] : List Rec) = [recNoId].filter (fun r =>
        r.id == "" && ((getMatchingRecord envEmptyZone credsX r "example.com.").res
          == Except.ok ([] : List Rec)))
  ∧ ([] : List Rec) = [recNoId].filterMap (fun r =>
        if r.id = "" then
          match (getMatchingRecord envEmptyZone credsX r "example.com.").res with
          | .ok [m] => some { r with id := m.id }
          | _ => none
        else some r)
  ∧ (partition1 [apexRec1] [recNoId]).1
      = [recNoId].filter (fun r =>
          ¬ ([apexWireRec].map coordOfWire1).contains (recordCoordinates r))
  ∧ (partition1 [apexRec1] [recNoId]).2
      = [recNoId].filter (fun r =>
          ([apexWireRec].map coordOfWire1).contains (recordCoordinates r)) :=
  c1_amended envEmptyZone credsX "example.com." [recNoId] [recNoId] [recNoId] []
    [apexWireRec] [apexRec1] (by decide) (by decide)

/-! ## C7 (amended): apex mapping in the later iteration -/

/-- Whether a string ends in a dot. -/
def hasTrailingDot (s : String) : Bool :=
  [ '.' ].isSuffixOf s.toList

theorem isPrefixOf_self (l : List Char) : l.isPrefixOf l = true := by
  induction l with
  | nil => rfl
  | cons a l ih => simp [List.isPrefixOf, ih]

theorem isSuffixOf_self (l : List Char) : l.isSuffixOf l = true := by
  simp [List.isSuffixOf, isPrefixOf_self]

theorem trimSuffix_self (s : String) : trimSuffix s s = "" := by
  unfold trimSuffix
  rw [if_pos (isSuffixOf_self s.toList)]
  simp

theorem trimSuffix_dot_of_no_dot {s : String} (h : hasTrailingDot s = false) :
    trimSuffix s "." = s := by
  unfold trimSuffix
  rw [if_neg]
  intro hsuf
  rw [hasTrailingDot] at h
  have : ".".toList = [ '.' ] := rfl
  rw [this] at hsuf
  rw [hsuf] at h
  cases h

/-- `RelativeName` maps the zone apex to `"@"` (for a zone with no trailing
dot left after trimming). -/
theorem relativeName_apex {s : String} (h : hasTrailingDot s = false) :
    relativeName s s = "@" := by
  unfold relativeName
  rw [trimSuffix_dot_of_no_dot h, trimSuffix_self]
  rw [if_pos]
  decide

/-- C7 (amended): in the later iteration the apex mapping holds in both
directions: every create request of `AppendRecords` and every edit request of
the update path serialises a record whose relative name is `"@"` with the
empty wire name, and the translator maps a wire record whose name equals the
(trimmed) zone back to `"@"`. (The earlier iteration performs neither
mapping.) -/
theorem c7_amended (env : ApiEnv) (creds : ApiCredentials) (zone : String)
    (records : List Rec) (w : PkbnRecord)
    (hw : w.name = trimZone zone) (hz : hasTrailingDot (trimZone zone) = false) :
    (∀ z p, ApiCall.create z p ∈ (appendRecords env creds zone records).log →
        ∃ r ∈ records, p = payloadFor creds zone (floorTTL r)
          ∧ (relativeName r.name zone = "@" → p.name = ""))
  ∧ (∀ z i p, ApiCall.edit z i p ∈ (updateRecords env creds zone records).log →
        ∃ r ∈ records, p = payloadFor creds zone (floorTTL r)
          ∧ (relativeName r.name zone = "@" → p.name = ""))
  ∧ (toLibdnsRecordMid w zone).name = "@" := by
  refine ⟨?_, ?_, ?_⟩
  · intro z p hmem
    rcases appendRecordsAux_create_mem env creds zone records [] [] z p hmem with h' | ⟨r, hr, _, hp⟩
    · simp at h'
    · subst hp
      refine ⟨r, hr, rfl, ?_⟩
      intro hrel
      simp only [payloadFor]
      rw [floorTTL_name]
      unfold wireName
      rw [if_pos hrel]
  · intro z i p hmem
    rcases updateRecordsAux_edit_mem env creds zone records [] [] z i p hmem with h' | ⟨r, hr, _, _, hp⟩
    · simp at h'
    · subst hp
      refine ⟨r, hr, rfl, ?_⟩
      intro hrel
      simp only [payloadFor]
      rw [floorTTL_name]
      unfold wireName
      rw [if_pos hrel]
  · simp only [toLibdnsRecordMid]
    rw [hw]
    exact relativeName_apex hz

/-- A normalized record addressing the zone apex. -/
def recApex : Rec :=
  { id := "", name := "@", priority := 0,
    ttl := 600 * nsPerSec, type := "TXT", value := "v" }

/-- C7 witness: the apex record and the apex wire record in zone
`example.com.`. -/
theorem c7_amended_witness :
    (∀ z p, ApiCall.create z p
        ∈ (appendRecords envEmptyZone credsX "example.com." [recApex]).log →
        ∃ r ∈ [recApex], p = payloadFor credsX "example.com." (floorTTL r)
          ∧ (relativeName r.name "example.com." = "@" → p.name = ""))
  ∧ (∀ z i p, ApiCall.edit z i p
        ∈ (updateRecords envEmptyZone credsX "example.com." [recApex]).log →
        ∃ r ∈ [recApex], p = payloadFor credsX "example.com." (floorTTL r)
          ∧ (relativeName r.name "example.com." = "@" → p.name = ""))
  ∧ (toLibdnsRecordMid apexWireRec "example.com.").name = "@" :=
  c7_amended envEmptyZone credsX "example.com." [recApex] apexWireRec
    (by decide) (by decide)

/-! ## C8 (amended): abort at the first failing create -/

/-- The provider's answer to the create request the later iteration issues
for a record. -/
def createOutcome (env : ApiEnv) (creds : ApiCredentials) (zone : String)
    (r : Rec) : Except String StatusResp :=
  env.create (trimZone zone) (payloadFor creds zone (floorTTL r))

/-- The provider's answer to the create request the earlier iteration issues
for a record. -/
def create1Outcome (env : ApiEnv) (creds : ApiCredentials) (zone : String)
    (r : Rec) : Except String StatusResp :=
  env.create (trimZone zone) (payload1For creds zone (floorTTL r))

/-- Whether a record's create (later iteration) succeeds fully. -/
def createOk (env : ApiEnv) (creds : ApiCredentials) (zone : String) (r : Rec) :
    Bool :=
  match createOutcome env creds zone r with
  | .ok st => st.status == "SUCCESS"
  | .error _ => false

/-- Whether a record's create (earlier iteration) succeeds fully. -/
def createOk1 (env : ApiEnv) (creds : ApiCredentials) (zone : String) (r : Rec) :
    Bool :=
  match create1Outcome env creds zone r with
  | .ok st => st.status == "SUCCESS"
  | .error _ => false

/-- The error a failed create produces: the transport error, or the
invalid-status error for a decoded non-success response. -/
def createFailErr : Except String StatusResp → PErr
  | .error m => .transport m
  | .ok st => .invalidStatus st.status

/-- The calls one successfully created record contributes to the later
`AppendRecords` log: its create plus its follow-up lookup. -/
def appendCallLog (env : ApiEnv) (creds : ApiCredentials) (zone : String)
    (r : Rec) : List ApiCall :=
  ApiCall.create (trimZone zone) (payloadFor creds zone (floorTTL r))
    :: (getMatchingRecord env creds (floorTTL r) zone).log

/-- Behaviour of the later `AppendRecords` loop at the first failing create:
all earlier records are created and reported, the failing create is the last
call issued, and the error describes the failure. -/
theorem appendRecordsAux_fail_at (env : ApiEnv) (creds : ApiCredentials)
    (zone : String) (rest : List Rec) (bad : Rec)
    (hbad : createOk env creds zone bad = false) :
    ∀ (pre acc : List Rec) (log : List ApiCall),
      (∀ r ∈ pre, createOk env creds zone r = true) →
      appendRecordsAux env creds zone acc log (pre ++ bad :: rest)
        = { log := log ++ (pre.map (appendCallLog env creds zone)).flatten
                  ++ [ApiCall.create (trimZone zone) (payloadFor creds zone (floorTTL bad))],
            recs := acc ++ pre.map (appendFinalize env creds zone),
            err := some (createFailErr (createOutcome env creds zone bad)) } := by
  intro pre
  induction pre with
  | nil =>
    intro acc log _
    rw [List.nil_append, appendRecordsAux]
    cases ho : env.create (trimZone zone) (payloadFor creds zone (floorTTL bad)) with
    | error msg =>
      simp only [ho]
      simp [createFailErr, createOutcome, ho]
    | ok st =>
      have hne : st.status ≠ "SUCCESS" := by
        rw [createOk, createOutcome, ho] at hbad
        simp only at hbad
        intro hcontra
        rw [hcontra] at hbad
        simp at hbad
      simp only [ho]
      rw [if_pos hne]
      simp [createFailErr, createOutcome, ho]
  | cons r pre ih =>
    intro acc log hall
    have hr := hall r (List.mem_cons_self r pre)
    cases ho : env.create (trimZone zone) (payloadFor creds zone (floorTTL r)) with
    | error msg =>
      rw [createOk, createOutcome, ho] at hr
      simp at hr
    | ok st =>
      rw [createOk, createOutcome, ho] at hr
      simp only at hr
      have hs : st.status = "SUCCESS" := eq_of_beq hr
      rw [List.cons_append, appendRecordsAux]
      simp only [ho]
      rw [if_neg (not_not_intro hs)]
      rw [ih _ _ (fun r' h' => hall r' (List.mem_cons_of_mem r h'))]
      simp [appendCallLog, List.append_assoc]

/-- Behaviour of the earlier `AppendRecords` loop at the first failing create:
it stops there but discards the created records, returning `nil`. -/
theorem appendRecords1Aux_fail_at (env : ApiEnv) (creds : ApiCredentials)
    (zone : String) (rest : List Rec) (bad : Rec)
    (hbad : createOk1 env creds zone bad = false) :
    ∀ (pre acc : List Rec) (log : List ApiCall),
      (∀ r ∈ pre, createOk1 env creds zone r = true) →
      appendRecords1Aux env creds zone acc log (pre ++ bad :: rest)
        = { log := log ++ pre.map (fun r =>
                    ApiCall.create (trimZone zone) (payload1For creds zone (floorTTL r)))
                  ++ [ApiCall.create (trimZone zone) (payload1For creds zone (floorTTL bad))],
            recs := [],
            err := some (createFailErr (create1Outcome env creds zone bad)) } := by
  intro pre
  induction pre with
  | nil =>
    intro acc log _
    rw [List.nil_append, appendRecords1Aux]
    cases ho : env.create (trimZone zone) (payload1For creds zone (floorTTL bad)) with
    | error msg =>
      simp only [ho]
      simp [createFailErr, create1Outcome, ho]
    | ok st =>
      have hne : st.status ≠ "SUCCESS" := by
        rw [createOk1, create1Outcome, ho] at hbad
        simp only at hbad
        intro hcontra
        rw [hcontra] at hbad
        simp at hbad
      simp only [ho]
      rw [if_pos hne]
      simp [createFailErr, create1Outcome, ho]
  | cons r pre ih =>
    intro acc log hall
    have hr := hall r (List.mem_cons_self r pre)
    cases ho : env.create (trimZone zone) (payload1For creds zone (floorTTL r)) with
    | error msg =>
      rw [createOk1, create1Outcome, ho] at hr
      simp at hr
    | ok st =>
      rw [createOk1, create1Outcome, ho] at hr
      simp only at hr
      have hs : st.status = "SUCCESS" := eq_of_beq hr
      rw [List.cons_append, appendRecords1Aux]
      simp only [ho]
      rw [if_neg (not_not_intro hs)]
      rw [ih _ _ (fun r' h' => hall r' (List.mem_cons_of_mem r h'))]
      simp [List.append_assoc]

/-- C8 (amended): both iterations stop at the first failing create — no later
record is attempted — and return the error of the failing create; the later
iteration returns exactly the records created before the failure, while the
earlier iteration returns the empty result instead. -/
theorem c8_amended (env env1 : ApiEnv) (creds : ApiCredentials) (zone : String)
    (pre rest pre1 rest1 : List Rec) (bad bad1 : Rec)
    (h2a : ∀ r ∈ pre, createOk env creds zone r = true)
    (h2b : createOk env creds zone bad = false)
    (h1a : ∀ r ∈ pre1, createOk1 env1 creds zone r = true)
    (h1b : createOk1 env1 creds zone bad1 = false) :
    appendRecords env creds zone (pre ++ bad :: rest)
      = { log := (pre.map (appendCallLog env creds zone)).flatten
                ++ [ApiCall.create (trimZone zone) (payloadFor creds zone (floorTTL bad))],
          recs := pre.map (appendFinalize env creds zone),
          err := some (createFailErr (createOutcome env creds zone bad)) }
  ∧ appendRecords1 env1 creds zone (pre1 ++ bad1 :: rest1)
      = { log := pre1.map (fun r =>
                  ApiCall.create (trimZone zone) (payload1For creds zone (floorTTL r)))
                ++ [ApiCall.create (trimZone zone) (payload1For creds zone (floorTTL bad1))],
          recs := [],
          err := some (createFailErr (create1Outcome env1 creds zone bad1)) } := by
  constructor
  · have h := appendRecordsAux_fail_at env creds zone rest bad h2b pre [] [] h2a
    simpa using h
  · have h := appendRecords1Aux_fail_at env1 creds zone rest1 bad1 h1b pre1 [] [] h1a
    simpa using h

/-- C8 witness: one successful create followed by a rejected one, in both
iterations. -/
theorem c8_amended_witness :
    appendRecords envFirstOk credsX "example.com." ([recOkFirst] ++ recBadSecond :: [])
      = { log := ([recOkFirst].map (appendCallLog envFirstOk credsX "example.com.")).flatten
                ++ [ApiCall.create (trimZone "example.com.")
                      (payloadFor credsX "example.com." (floorTTL recBadSecond))],
          recs := [recOkFirst].map (appendFinalize envFirstOk credsX "example.com."),
          err := some (createFailErr (createOutcome envFirstOk credsX "example.com." recBadSecond)) }
  ∧ appendRecords1 envFirstOk credsX "example.com." ([recOkFirst] ++ recBadSecond :: [])
      = { log := [recOkFirst].map (fun r =>
                  ApiCall.create (trimZone "example.com.")
                    (payload1For credsX "example.com." (floorTTL r)))
                ++ [ApiCall.create (trimZone "example.com.")
                      (payload1For credsX "example.com." (floorTTL recBadSecond))],
          recs := [],
          err := some (createFailErr (create1Outcome envFirstOk credsX "example.com." recBadSecond)) } :=
  c8_amended envFirstOk envFirstOk credsX "example.com." [recOkFirst] [] [recOkFirst] []
    recBadSecond recBadSecond (by decide) (by decide) (by decide) (by decide)

end Porkbun
